import Mathlib

/-!
Verification of the repeater-node core of `entanglement_swap_sim`
(`RepeaterProtocol.py`): the per-slot lifecycle state machine
(`MemoryAccess`), the arrival routing with detection (`MemoryRouting`),
the pairing reaction (`RepeaterProtocol.run`) and the zero-capacity
fallback (`RepeaterProtocol._run_no_mem`), embedded shallowly with the
randomness (the integer draw of `np.random.random_integers(1,100)` and
the measurement outcome) passed in explicitly.
-/

namespace EntanglementSwap

/-- Slot status, the `properties['status']` string of a memory position:
one of `"IDLE"`, `"TARGET"`, `"FILLED"`, `"RESET"`. -/
inductive Status where
  | IDLE
  | TARGET
  | FILLED
  | RESET
deriving DecidableEq

/-- Abstraction of the quantum state held by a memory position.
`canonical` is the default reinitialization state `ns.h0` assigned by
`MemoryAccess._reset_state`; `stored det` is the state of the slot qubit
after `MemoryBehavior` ran on it (CZ with the incoming qubit and an
X-basis measurement of the incoming qubit always act on the pair, and the
conditional H/Z correction half runs exactly when `det` is true). -/
inductive QState where
  | canonical
  | stored (det : Bool)
deriving DecidableEq

/-- A memory slot: its status property together with the qubit currently
held at that memory position (`none` after the position was popped). -/
structure Slot where
  status : Status
  payload : Option QState
deriving DecidableEq

/-- Pointwise update of a map, used for writes to a single memory position
or to a single dict entry. -/
def upd {α : Type} (f : Nat → α) (i : Nat) (v : α) : Nat → α :=
  fun j => if j = i then v else f j

/-- The lifecycle view of one slot inside `MemoryAccess`: the slot itself,
its entry `rt` in the `reset_timer` dict and its entry `tt` in the
`reset_trigger_timer` dict. -/
structure LC where
  slot : Slot
  rt : Nat
  tt : Nat
deriving DecidableEq

/-- One iteration of the per-slot loop body of `MemoryAccess.run`
(lines 251-278): a `RESET` slot decrements `reset_timer`, and when the
timer is already 0 it is reinitialized by `_reset_state` (payload put back
to the canonical default state, status set to `IDLE`) with `reset_timer`
restored to `reset_duration_cycles`; a `TARGET`, `IDLE` or `FILLED` slot
decrements `reset_trigger_timer`, and when that timer is already 0 the
slot is forced to `RESET` with `reset_trigger_timer` restored to
`reset_period_cycles`. -/
def lcStep (period dur : Nat) (s : LC) : LC :=
  match s.slot.status with
  | Status.RESET =>
      if s.rt = 0 then ⟨⟨Status.IDLE, some QState.canonical⟩, dur, s.tt⟩
      else ⟨s.slot, s.rt - 1, s.tt⟩
  | Status.TARGET =>
      if s.tt = 0 then ⟨⟨Status.RESET, s.slot.payload⟩, s.rt, period⟩
      else ⟨s.slot, s.rt, s.tt - 1⟩
  | Status.IDLE =>
      if s.tt = 0 then ⟨⟨Status.RESET, s.slot.payload⟩, s.rt, period⟩
      else ⟨s.slot, s.rt, s.tt - 1⟩
  | Status.FILLED =>
      if s.tt = 0 then ⟨⟨Status.RESET, s.slot.payload⟩, s.rt, period⟩
      else ⟨s.slot, s.rt, s.tt - 1⟩

/-- First loop of `MemoryAccess._get_new_target`: whether some slot of the
channel currently has status `TARGET`. -/
def targetExists (mem : Nat → Slot) (slots : List Nat) : Bool :=
  slots.any (fun i => decide ((mem i).status = Status.TARGET))

/-- Second loop of `MemoryAccess._get_new_target`: assign the first slot
with status `IDLE` (in list order, ascending ids) as the new `TARGET`. -/
def promoteFirstIdle (mem : Nat → Slot) : List Nat → (Nat → Slot)
  | [] => mem
  | i :: rest =>
      if (mem i).status = Status.IDLE then
        upd mem i ⟨Status.TARGET, (mem i).payload⟩
      else promoteFirstIdle mem rest

/-- `MemoryAccess._get_new_target` (lines 231-241): return unchanged if a
`TARGET` already exists, otherwise promote the first `IDLE` slot. -/
def getNewTarget (mem : Nat → Slot) (slots : List Nat) : Nat → Slot :=
  if targetExists mem slots then mem else promoteFirstIdle mem slots

/-- The two timer dicts of one `MemoryAccess` instance, indexed by slot
id: `rt` is `reset_timer`, `tt` is `reset_trigger_timer`. -/
structure ChanTimers where
  rt : Nat → Nat
  tt : Nat → Nat

/-- One iteration of the tick loop of `MemoryAccess.run` for slot `i`:
the per-slot lifecycle body followed by the `_get_new_target()` call,
which the source places inside the per-slot loop (line 280). -/
def processSlot (period dur : Nat) (slots : List Nat) (mem : Nat → Slot)
    (ct : ChanTimers) (i : Nat) : (Nat → Slot) × ChanTimers :=
  let r := lcStep period dur ⟨mem i, ct.rt i, ct.tt i⟩
  let mem1 := upd mem i r.slot
  (getNewTarget mem1 slots, ⟨upd ct.rt i r.rt, upd ct.tt i r.tt⟩)

/-- One clock tick of `MemoryAccess.run`: process every slot of the
channel in list order (ascending ids). -/
def tickChannel (period dur : Nat) (slots : List Nat) (mem : Nat → Slot)
    (ct : ChanTimers) : (Nat → Slot) × ChanTimers :=
  slots.foldl (fun acc i => processSlot period dur slots acc.1 acc.2 i) (mem, ct)

/-- `MemoryRouting._get_target_slot` (lines 170-175): first slot of the
channel, in list order, with status `TARGET`; `none` if there is none. -/
def getTargetSlot (mem : Nat → Slot) : List Nat → Option Nat
  | [] => none
  | i :: rest =>
      if (mem i).status = Status.TARGET then some i else getTargetSlot mem rest

/-- The detection trial of `MemoryRouting.run` line 188:
`np.random.random_integers(1,100) <= self.probability_detection`, with the
uniform integer draw from `[1,100]` made an explicit argument. -/
def detected (p : ℚ) (draw : Nat) : Bool :=
  decide ((draw : ℚ) ≤ p)

/-- Net effect of executing `MemoryBehavior` on the qubit held in the
target slot: the CZ interaction and the X-basis measurement of the
incoming qubit always transform it, and the outcome `det` selects whether
the conditional correction half is applied. -/
def memoryBehavior (det : Bool) (payload : Option QState) : Option QState :=
  payload.map (fun _ => QState.stored det)

/-- Result of one wake-up of `MemoryRouting.run`: the memory map, the
staging buffer at the channel's storage position, and the payload of the
`STORED` signal (`none` when no signal was sent). -/
structure RouteOut where
  mem : Nat → Slot
  buf : Option QState
  stored : Option Nat

/-- Body of the `MemoryRouting.run` loop (lines 184-197): compute the
target slot; if the staging buffer holds a qubit and a `TARGET` slot
exists, run `MemoryBehavior` with the detection outcome, pop the staging
position, set the target slot's status to `FILLED` and send `STORED`
with the slot id — all of this happens whether or not the detection trial
succeeded.  If the buffer is empty, or no `TARGET` exists, nothing is
modified (in particular the buffer is not cleared). -/
def routeStep (p : ℚ) (draw : Nat) (slots : List Nat) (mem : Nat → Slot)
    (buf : Option QState) : RouteOut :=
  let target := getTargetSlot mem slots
  match buf with
  | none => ⟨mem, buf, none⟩
  | some _ =>
      match target with
      | none => ⟨mem, buf, none⟩
      | some t =>
          let det := detected p draw
          ⟨upd mem t ⟨Status.FILLED, memoryBehavior det ((mem t).payload)⟩,
            none, some t⟩

/-- Scan in `RepeaterProtocol.run` (lines 73-82): first slot of a channel,
in list order, with status `FILLED`. -/
def firstFilled (mem : Nat → Slot) : List Nat → Option Nat
  | [] => none
  | i :: rest =>
      if (mem i).status = Status.FILLED then some i else firstFilled mem rest

/-- The pair handed to the downstream sink by `send_signal(SUCCESS, ...)`
in `RepeaterProtocol.run`, together with the slot ids it was taken from. -/
structure PairReadyEvent where
  payload_a : Option QState
  payload_b : Option QState
  slot_id_a : Nat
  slot_id_b : Nat
deriving DecidableEq

/-- Reaction of `RepeaterProtocol.run` to one `STORED` signal
(lines 71-101): scan both channels for their first `FILLED` slot; the
guard is the Python truthiness test `if slot_A and slot_B:`, which holds
only when both scans found a slot and neither found slot id is the integer
`0` (`None` and `0` are both falsy).  When the guard holds, both slots are
popped (payload removed), one success signal carrying the two payloads is
sent, and both statuses are then set to `RESET`.  Otherwise nothing
happens. -/
def pairStep (slotsA slotsB : List Nat) (mem : Nat → Slot) :
    (Nat → Slot) × Option PairReadyEvent :=
  match firstFilled mem slotsA, firstFilled mem slotsB with
  | some a, some b =>
      if a ≠ 0 ∧ b ≠ 0 then
        let mem1 := upd mem a ⟨Status.RESET, none⟩
        let mem2 := upd mem1 b ⟨Status.RESET, none⟩
        (mem2, some ⟨(mem a).payload, (mem b).payload, a, b⟩)
      else (mem, none)
  | some _, none => (mem, none)
  | none, some _ => (mem, none)
  | none, none => (mem, none)

/-- One wake-up of `RepeaterProtocol._run_no_mem` (lines 104-116),
triggered by an arrival on either port: both staging positions are popped
unconditionally, and a pair is emitted exactly when both popped values are
present.  A lone buffered payload is therefore popped and discarded, not
kept for the next arrival. -/
def noMemStep (bufA bufB : Option QState) :
    Option QState × Option QState × Option (QState × QState) :=
  match bufA, bufB with
  | some q1, some q2 => (none, none, some (q1, q2))
  | some _, none => (none, none, none)
  | none, some _ => (none, none, none)
  | none, none => (none, none, none)

/-- Configuration of a repeater node: the slot ids of each channel (the
positions `get_matching_positions` returns for `origin = node_A` /
`node_B`), and the `mem_config` entries `reset_period_cycles`,
`reset_duration_cycles` and `probability_detection`. -/
structure Params where
  slotsA : List Nat
  slotsB : List Nat
  period : Nat
  dur : Nat
  p : ℚ

/-- Full state of the repeater node: the quantum memory (status property
and held qubit per position), the two `MemoryAccess` timer dicts, and the
two staging buffers (memory positions `storage_idx` 0 and 1). -/
structure Sys where
  mem : Nat → Slot
  ctA : ChanTimers
  ctB : ChanTimers
  bufA : Option QState
  bufB : Option QState

/-- Initial timer dicts of `MemoryAccess.__init__`: every `reset_timer`
entry starts at `reset_duration_cycles` and every `reset_trigger_timer`
entry at `reset_period_cycles`. -/
def initTimers (period dur : Nat) : ChanTimers :=
  ⟨fun _ => dur, fun _ => period⟩

/-- Initial memory.  Modelled from the spec: the network-construction code
that builds the repeater's quantum processor (assigning the `origin`
property of each position and loading each slot with a qubit) is not among
the sources; following the spec's data-model lifecycle, every slot starts
`IDLE` holding the canonical default state, except the lowest-id slot of
each channel, which `MemoryAccess.run` (lines 244-245, in the sources)
marks `TARGET` before the first tick. -/
def initMem (slotsA slotsB : List Nat) : Nat → Slot := fun i =>
  if slotsA.head? = some i ∨ slotsB.head? = some i then
    ⟨Status.TARGET, some QState.canonical⟩
  else ⟨Status.IDLE, some QState.canonical⟩

/-- Initial system state. -/
def initSys (P : Params) : Sys :=
  ⟨initMem P.slotsA P.slotsB, initTimers P.period P.dur,
    initTimers P.period P.dur, none, none⟩

/-- A clock tick of channel A's `MemoryAccess`. -/
def applyTickA (P : Params) (s : Sys) : Sys :=
  let r := tickChannel P.period P.dur P.slotsA s.mem s.ctA
  { s with mem := r.1, ctA := r.2 }

/-- A clock tick of channel B's `MemoryAccess`. -/
def applyTickB (P : Params) (s : Sys) : Sys :=
  let r := tickChannel P.period P.dur P.slotsB s.mem s.ctB
  { s with mem := r.1, ctB := r.2 }

/-- A wake-up of channel A's `MemoryRouting` with detection draw `draw`. -/
def applyRouteA (P : Params) (draw : Nat) (s : Sys) : Sys :=
  let r := routeStep P.p draw P.slotsA s.mem s.bufA
  { s with mem := r.mem, bufA := r.buf }

/-- A wake-up of channel B's `MemoryRouting` with detection draw `draw`. -/
def applyRouteB (P : Params) (draw : Nat) (s : Sys) : Sys :=
  let r := routeStep P.p draw P.slotsB s.mem s.bufB
  { s with mem := r.mem, bufB := r.buf }

/-- The pairing reaction of `RepeaterProtocol.run` applied to the memory. -/
def applyPair (P : Params) (s : Sys) : Sys :=
  { s with mem := (pairStep P.slotsA P.slotsB s.mem).1 }

/-- One interleaving step of the cooperative simulation: an arrival docking
at a staging position, a lifecycle tick of either channel, a routing
wake-up of either channel (with its random draw), or the pairing
reaction. -/
inductive Step (P : Params) : Sys → Sys → Prop where
  | arriveA (s : Sys) (q : QState) : Step P s { s with bufA := some q }
  | arriveB (s : Sys) (q : QState) : Step P s { s with bufB := some q }
  | tickA (s : Sys) : Step P s (applyTickA P s)
  | tickB (s : Sys) : Step P s (applyTickB P s)
  | routeA (s : Sys) (draw : Nat) : Step P s (applyRouteA P draw s)
  | routeB (s : Sys) (draw : Nat) : Step P s (applyRouteB P draw s)
  | pair (s : Sys) : Step P s (applyPair P s)

/-- States the repeater node can reach from its initial state. -/
inductive Reachable (P : Params) : Sys → Prop where
  | init : Reachable P (initSys P)
  | step {s s' : Sys} : Reachable P s → Step P s s' → Reachable P s'

/-- Number of slots of a channel whose status is `TARGET`. -/
def countTarget (mem : Nat → Slot) (slots : List Nat) : Nat :=
  slots.countP (fun i => decide ((mem i).status = Status.TARGET))

/-- Every slot of the channel that is not in `RESET` holds a qubit. -/
def PayloadInv (mem : Nat → Slot) (slots : List Nat) : Prop :=
  ∀ i ∈ slots, (mem i).status ≠ Status.RESET → (mem i).payload ≠ none

/-- The inductive invariant: at most one `TARGET` per channel, and every
non-`RESET` slot holds a qubit. -/
def Inv (P : Params) (s : Sys) : Prop :=
  countTarget s.mem P.slotsA ≤ 1 ∧ countTarget s.mem P.slotsB ≤ 1 ∧
    PayloadInv s.mem P.slotsA ∧ PayloadInv s.mem P.slotsB

/-- A memory in which every position is FILLED and holds a qubit. -/
def cxAllFilled : Nat → Slot := fun _ => ⟨Status.FILLED, some QState.canonical⟩

/-- Scenario-A configuration: one slot per channel (ids 2 and 3, since
positions 0 and 1 are the staging positions `storage_idx`), reset period
10, reset duration 2, detection parameter 100 (every draw succeeds). -/
def P1 : Params := ⟨[2], [3], 10, 2, 100⟩

/-- Scenario A, arrival on channel A. -/
def c1s1 : Sys := { initSys P1 with bufA := some QState.canonical }

/-- Scenario A, the arrival is routed into slot 2. -/
def c1s2 : Sys := applyRouteA P1 1 c1s1

/-- Scenario A, arrival on channel B. -/
def c1s3 : Sys := { c1s2 with bufB := some QState.canonical }

/-- Scenario A, the arrival is routed into slot 3. -/
def c1s4 : Sys := applyRouteB P1 1 c1s3

/-- A memory with a TARGET slot at position 2 and qubits everywhere. -/
def cx2mem : Nat → Slot := fun i =>
  if i = 2 then ⟨Status.TARGET, some QState.canonical⟩
  else ⟨Status.IDLE, some QState.canonical⟩

/-- Single-slot-per-channel configuration with the shortest legal timers,
used to drive one slot through a full TARGET/RESET/IDLE cycle. -/
def P4 : Params := ⟨[2], [3], 1, 1, 1⟩

/-- State of the `P4` node after four lifecycle ticks of channel A: slot 2
went TARGET, trigger-expired to RESET, waited out the reset duration, and
was reinitialized by `_reset_state` and promoted again. -/
def s4 : Sys := applyTickA P4 (applyTickA P4 (applyTickA P4 (applyTickA P4 (initSys P4))))

/-- Two slots per channel, reset period 10, reset duration 2. -/
def P5 : Params := ⟨[2, 3], [4, 5], 10, 2, 1⟩

/-- Two slots per channel, reset period 10, reset duration 2, detection
parameter 100; used for the pairing-reclaims-slot trace. -/
def P6 : Params := ⟨[2, 3], [4, 5], 10, 2, 100⟩

/-- Trace: one tick (trigger timers 10 to 9). -/
def c6s1 : Sys := applyTickA P6 (initSys P6)

/-- Trace: arrival on channel A. -/
def c6s2 : Sys := { c6s1 with bufA := some QState.canonical }

/-- Trace: the arrival is stored into slot 2 (FILLED). -/
def c6s3 : Sys := applyRouteA P6 1 c6s2

/-- Trace: another tick (slot 3 is promoted to TARGET). -/
def c6s4 : Sys := applyTickA P6 c6s3

/-- Trace: arrival on channel B. -/
def c6s5 : Sys := { c6s4 with bufB := some QState.canonical }

/-- Trace: the arrival is stored into slot 4 (FILLED). -/
def c6s6 : Sys := applyRouteB P6 1 c6s5

/-- Trace: the pairing reaction pops slots 2 and 4 and sets them RESET,
leaving slot 2's trigger timer at its partially decremented value 8. -/
def c6s7 : Sys := applyPair P6 c6s6

/-- Trace: first tick of the reset phase of slot 2. -/
def c6s8 : Sys := applyTickA P6 c6s7

/-- Trace: second tick of the reset phase of slot 2 (reset timer now 0). -/
def c6s9 : Sys := applyTickA P6 c6s8

/-- A memory whose positions 2,3,4,5 are all FILLED with a stored qubit. -/
def cx8mem : Nat → Slot := fun i =>
  if i = 2 ∨ i = 3 ∨ i = 4 ∨ i = 5 then ⟨Status.FILLED, some QState.canonical⟩
  else ⟨Status.IDLE, some QState.canonical⟩

/-- A memory in which no slot is TARGET (all IDLE). -/
def cx9mem : Nat → Slot := fun _ => ⟨Status.IDLE, some QState.canonical⟩

theorem upd_self {α : Type} (f : Nat → α) (i : Nat) (v : α) : upd f i v i = v := by
  simp [upd]

theorem upd_other {α : Type} (f : Nat → α) (i j : Nat) (v : α) (h : j ≠ i) :
    upd f i v j = f j := by
  simp [upd, h]

theorem countTarget_le_of_pointwise : ∀ (slots : List Nat) (mem mem' : Nat → Slot),
    (∀ i ∈ slots, (mem' i).status = Status.TARGET → (mem i).status = Status.TARGET) →
    countTarget mem' slots ≤ countTarget mem slots := by
  intro slots
  induction slots with
  | nil => intro mem mem' _; simp [countTarget]
  | cons a t ih =>
      intro mem mem' h
      have hl := ih mem mem' (fun i hi => h i (List.mem_cons_of_mem a hi))
      have ha := h a (List.mem_cons_self a t)
      simp only [countTarget, List.countP_cons] at *
      by_cases hta : (mem' a).status = Status.TARGET
      · simp [hta, ha hta]
        omega
      · by_cases htb : (mem a).status = Status.TARGET <;> simp [hta, htb] <;> omega

theorem countTarget_congr : ∀ (slots : List Nat) (mem mem' : Nat → Slot),
    (∀ i ∈ slots, mem' i = mem i) →
    countTarget mem' slots = countTarget mem slots := by
  intro slots
  induction slots with
  | nil => intro mem mem' _; rfl
  | cons a t ih =>
      intro mem mem' h
      have hl := ih mem mem' (fun i hi => h i (List.mem_cons_of_mem a hi))
      have ha := h a (List.mem_cons_self a t)
      simp only [countTarget, List.countP_cons] at *
      rw [hl, ha]

theorem count_eq_zero_of_not_targetExists (mem : Nat → Slot) (slots : List Nat)
    (h : targetExists mem slots = false) : countTarget mem slots = 0 := by
  rw [countTarget, List.countP_eq_zero]
  intro a ha
  simp only [targetExists, List.any_eq_false, decide_eq_true_eq] at h
  simpa using h a ha

theorem promoteFirstIdle_spec (mem : Nat → Slot) : ∀ (l : List Nat),
    promoteFirstIdle mem l = mem ∨
      ∃ i, i ∈ l ∧ (mem i).status = Status.IDLE ∧
        promoteFirstIdle mem l = upd mem i ⟨Status.TARGET, (mem i).payload⟩ := by
  intro l
  induction l with
  | nil => left; rfl
  | cons a t ih =>
      by_cases ha : (mem a).status = Status.IDLE
      · right
        exact ⟨a, List.mem_cons_self a t, ha, by simp [promoteFirstIdle, ha]⟩
      · rcases ih with h | ⟨i, hi, hst, he⟩
        · left; simpa [promoteFirstIdle, ha] using h
        · right
          exact ⟨i, List.mem_cons_of_mem a hi, hst, by simpa [promoteFirstIdle, ha] using he⟩

theorem count_upd_target_le_one : ∀ (slots : List Nat) (mem : Nat → Slot) (i : Nat)
    (pl : Option QState), slots.Nodup → countTarget mem slots = 0 →
    countTarget (upd mem i ⟨Status.TARGET, pl⟩) slots ≤ 1 := by
  intro slots
  induction slots with
  | nil => intro mem i pl _ _; simp [countTarget]
  | cons a t ih =>
      intro mem i pl hnd h0
      rw [List.nodup_cons] at hnd
      rw [countTarget, List.countP_cons] at h0
      have ht0 : countTarget mem t = 0 := by rw [countTarget]; omega
      have ha0 : ¬((mem a).status = Status.TARGET) := by
        intro hc
        simp [hc] at h0
      rw [countTarget, List.countP_cons]
      by_cases hai : a = i
      · subst hai
        have htail : countTarget (upd mem a ⟨Status.TARGET, pl⟩) t = 0 := by
          rw [countTarget_congr t mem _ (fun k hk => upd_other mem a k _ (by
            intro hk2; exact hnd.1 (hk2 ▸ hk)))]
          exact ht0
        rw [countTarget] at htail
        simp [htail, upd_self]
      · have hha : upd mem i ⟨Status.TARGET, pl⟩ a = mem a :=
          upd_other mem i a _ hai
        have hih := ih mem i pl hnd.2 ht0
        rw [countTarget] at hih
        simp [hha, ha0]
        omega

theorem getNewTarget_le_one (mem : Nat → Slot) (slots : List Nat) (hnd : slots.Nodup)
    (h : countTarget mem slots ≤ 1) : countTarget (getNewTarget mem slots) slots ≤ 1 := by
  unfold getNewTarget
  split
  · exact h
  · next hte =>
    have h0 := count_eq_zero_of_not_targetExists mem slots (by
      simpa using hte)
    rcases promoteFirstIdle_spec mem slots with he | ⟨i, _, _, he⟩
    · rw [he]; omega
    · rw [he]; exact count_upd_target_le_one slots mem i _ hnd h0

theorem getNewTarget_frame (mem : Nat → Slot) (slots : List Nat) (j : Nat)
    (hj : j ∉ slots) : getNewTarget mem slots j = mem j := by
  unfold getNewTarget
  split
  · rfl
  · rcases promoteFirstIdle_spec mem slots with he | ⟨i, hi, _, he⟩
    · rw [he]
    · rw [he]; exact upd_other mem i j _ (fun h => hj (h ▸ hi))

theorem lcStep_target_of (period dur : Nat) (s : LC)
    (h : (lcStep period dur s).slot.status = Status.TARGET) :
    s.slot.status = Status.TARGET := by
  unfold lcStep at h
  cases hs : s.slot.status <;> simp only [hs] at h <;> split at h <;> simp_all

theorem lcStep_payload (period dur : Nat) (s : LC)
    (h : s.slot.status ≠ Status.RESET → s.slot.payload ≠ none) :
    (lcStep period dur s).slot.status ≠ Status.RESET →
      (lcStep period dur s).slot.payload ≠ none := by
  unfold lcStep
  cases hs : s.slot.status <;> simp only [hs] <;> split <;> simp_all

theorem countTarget_upd_le (mem : Nat → Slot) (slots : List Nat) (i : Nat) (sl : Slot)
    (h : sl.status ≠ Status.TARGET) (hle : countTarget mem slots ≤ 1) :
    countTarget (upd mem i sl) slots ≤ 1 := by
  refine le_trans (countTarget_le_of_pointwise slots mem _ ?_) hle
  intro k _ hk
  by_cases hki : k = i
  · subst hki; rw [upd_self] at hk; exact absurd hk h
  · rwa [upd_other mem i k sl hki] at hk

theorem payloadInv_upd (mem : Nat → Slot) (slots : List Nat) (i : Nat) (sl : Slot)
    (h : sl.status ≠ Status.RESET → sl.payload ≠ none) (hp : PayloadInv mem slots) :
    PayloadInv (upd mem i sl) slots := by
  intro k hk
  by_cases hki : k = i
  · subst hki; rw [upd_self]; exact h
  · rw [upd_other mem i k sl hki]; exact hp k hk

theorem getNewTarget_payload (mem : Nat → Slot) (slots : List Nat)
    (h : PayloadInv mem slots) : PayloadInv (getNewTarget mem slots) slots := by
  unfold getNewTarget
  split
  · exact h
  · rcases promoteFirstIdle_spec mem slots with he | ⟨i, hi, hst, he⟩
    · rw [he]; exact h
    · rw [he]
      refine payloadInv_upd mem slots i _ (fun _ => ?_) h
      exact h i hi (by rw [hst]; simp)

theorem processSlot_count (period dur : Nat) (slots : List Nat) (mem : Nat → Slot)
    (ct : ChanTimers) (i : Nat) (hnd : slots.Nodup) (h : countTarget mem slots ≤ 1) :
    countTarget (processSlot period dur slots mem ct i).1 slots ≤ 1 := by
  unfold processSlot
  apply getNewTarget_le_one _ _ hnd
  refine le_trans (countTarget_le_of_pointwise slots mem _ ?_) h
  intro k _ hk
  by_cases hki : k = i
  · subst hki
    rw [upd_self] at hk
    exact lcStep_target_of period dur ⟨mem k, ct.rt k, ct.tt k⟩ hk
  · rwa [upd_other mem i k _ hki] at hk

theorem processSlot_payload (period dur : Nat) (slots : List Nat) (mem : Nat → Slot)
    (ct : ChanTimers) (i : Nat) (h : PayloadInv mem slots) :
    PayloadInv (processSlot period dur slots mem ct i).1 slots := by
  unfold processSlot
  apply getNewTarget_payload
  intro k hk
  by_cases hki : k = i
  · subst hki
    rw [upd_self]
    exact lcStep_payload period dur ⟨mem k, ct.rt k, ct.tt k⟩ (h k hk)
  · rw [upd_other mem i k _ hki]
    exact h k hk


theorem processSlot_frame (period dur : Nat) (slots : List Nat) (mem : Nat → Slot)
    (ct : ChanTimers) (i j : Nat) (hi : i ∈ slots) (hj : j ∉ slots) :
    (processSlot period dur slots mem ct i).1 j = mem j := by
  show getNewTarget (upd mem i (lcStep period dur ⟨mem i, ct.rt i, ct.tt i⟩).slot) slots j
    = mem j
  rw [getNewTarget_frame _ _ _ hj]
  exact upd_other mem i j _ (fun h => hj (h ▸ hi))

theorem tickFold_frame (period dur : Nat) (slots : List Nat) :
    ∀ (l : List Nat) (acc : (Nat → Slot) × ChanTimers) (j : Nat),
      (∀ x ∈ l, x ∈ slots) → j ∉ slots →
      ((l.foldl (fun acc i => processSlot period dur slots acc.1 acc.2 i) acc).1) j
        = acc.1 j := by
  intro l
  induction l with
  | nil => intro acc j _ _; rfl
  | cons a t ih =>
      intro acc j hl hj
      rw [List.foldl_cons]
      rw [ih _ j (fun x hx => hl x (List.mem_cons_of_mem a hx)) hj]
      exact processSlot_frame period dur slots acc.1 acc.2 a j
        (hl a (List.mem_cons_self a t)) hj

theorem tickFold_count (period dur : Nat) (slots : List Nat) (hnd : slots.Nodup) :
    ∀ (l : List Nat) (acc : (Nat → Slot) × ChanTimers),
      countTarget acc.1 slots ≤ 1 →
      countTarget ((l.foldl (fun acc i => processSlot period dur slots acc.1 acc.2 i)
        acc).1) slots ≤ 1 := by
  intro l
  induction l with
  | nil => intro acc h; exact h
  | cons a t ih =>
      intro acc h
      rw [List.foldl_cons]
      exact ih _ (processSlot_count period dur slots acc.1 acc.2 a hnd h)

theorem tickFold_payload (period dur : Nat) (slots : List Nat) :
    ∀ (l : List Nat) (acc : (Nat → Slot) × ChanTimers),
      PayloadInv acc.1 slots →
      PayloadInv ((l.foldl (fun acc i => processSlot period dur slots acc.1 acc.2 i)
        acc).1) slots := by
  intro l
  induction l with
  | nil => intro acc h; exact h
  | cons a t ih =>
      intro acc h
      rw [List.foldl_cons]
      exact ih _ (processSlot_payload period dur slots acc.1 acc.2 a h)

theorem tickChannel_frame (period dur : Nat) (slots : List Nat) (mem : Nat → Slot)
    (ct : ChanTimers) (j : Nat) (hj : j ∉ slots) :
    (tickChannel period dur slots mem ct).1 j = mem j :=
  tickFold_frame period dur slots slots (mem, ct) j (fun _ hx => hx) hj

theorem tickChannel_count (period dur : Nat) (slots : List Nat) (mem : Nat → Slot)
    (ct : ChanTimers) (hnd : slots.Nodup) (h : countTarget mem slots ≤ 1) :
    countTarget (tickChannel period dur slots mem ct).1 slots ≤ 1 :=
  tickFold_count period dur slots hnd slots (mem, ct) h

theorem tickChannel_payload (period dur : Nat) (slots : List Nat) (mem : Nat → Slot)
    (ct : ChanTimers) (h : PayloadInv mem slots) :
    PayloadInv (tickChannel period dur slots mem ct).1 slots :=
  tickFold_payload period dur slots slots (mem, ct) h

theorem getTargetSlot_spec (mem : Nat → Slot) : ∀ (l : List Nat) (t : Nat),
    getTargetSlot mem l = some t → t ∈ l ∧ (mem t).status = Status.TARGET := by
  intro l
  induction l with
  | nil => intro t h; simp [getTargetSlot] at h
  | cons a r ih =>
      intro t h
      unfold getTargetSlot at h
      split at h
      · cases h
        exact ⟨List.mem_cons_self a r, by assumption⟩
      · rcases ih t h with ⟨h1, h2⟩
        exact ⟨List.mem_cons_of_mem a h1, h2⟩

theorem routeStep_eq (p : ℚ) (draw : Nat) (slots : List Nat) (mem : Nat → Slot)
    (buf : Option QState) :
    routeStep p draw slots mem buf = ⟨mem, buf, none⟩ ∨
      ∃ t q, buf = some q ∧ getTargetSlot mem slots = some t ∧
        routeStep p draw slots mem buf =
          ⟨upd mem t ⟨Status.FILLED, memoryBehavior (detected p draw) ((mem t).payload)⟩,
            none, some t⟩ := by
  cases buf with
  | none => left; rfl
  | some q =>
      cases ht : getTargetSlot mem slots with
      | none =>
          left
          simp [routeStep, ht]
      | some t =>
          right
          refine ⟨t, q, rfl, ?_, ?_⟩
          · first
            | exact ht
            | rfl
          · simp [routeStep, ht]

theorem pairStep_eq (A B : List Nat) (mem : Nat → Slot) :
    (pairStep A B mem).1 = mem ∨
      ∃ a b, (pairStep A B mem).1 =
        upd (upd mem a ⟨Status.RESET, none⟩) b ⟨Status.RESET, none⟩ := by
  unfold pairStep
  cases firstFilled mem A with
  | none => cases firstFilled mem B <;> left <;> rfl
  | some a =>
      cases firstFilled mem B with
      | none => left; rfl
      | some b =>
          by_cases hab : a ≠ 0 ∧ b ≠ 0
          · right; exact ⟨a, b, by simp [hab]⟩
          · left; simp [hab]

theorem initMem_comm (A B : List Nat) : initMem A B = initMem B A := by
  funext i
  unfold initMem
  by_cases h : A.head? = some i ∨ B.head? = some i
  · rw [if_pos h, if_pos (Or.symm h)]
  · rw [if_neg h, if_neg (fun hc => h (Or.symm hc))]

theorem countTarget_initMem_le_one (A B : List Nat) (hA : A.Nodup)
    (hd : A.Disjoint B) : countTarget (initMem A B) A ≤ 1 := by
  cases A with
  | nil => simp [countTarget]
  | cons a t =>
      rw [countTarget, List.countP_cons]
      have hnd := List.nodup_cons.mp hA
      have htail : countTarget (initMem (a :: t) B) t = 0 := by
        rw [countTarget, List.countP_eq_zero]
        intro k hk
        have hka : k ≠ a := fun hc => hnd.1 (hc ▸ hk)
        have hkB : k ∉ B := fun hkB => hd (List.mem_cons_of_mem a hk) hkB
        have hc1 : ¬(a = k) := fun hc => hka hc.symm
        have hc2 : ¬(B.head? = some k) := by
          cases B with
          | nil => simp
          | cons b s =>
              intro h2
              have hbk : b = k := by simpa using h2
              exact hkB (hbk ▸ List.mem_cons_self b s)
        simp [initMem, hc1, hc2]
      rw [countTarget] at htail
      have hhead : initMem (a :: t) B a = ⟨Status.TARGET, some QState.canonical⟩ := by
        simp [initMem]
      simp [htail, hhead]

theorem payloadInv_initMem (A B slots : List Nat) : PayloadInv (initMem A B) slots := by
  intro k _
  unfold initMem
  split <;> simp

theorem inv_init (P : Params) (hA : P.slotsA.Nodup) (hB : P.slotsB.Nodup)
    (hd : P.slotsA.Disjoint P.slotsB) : Inv P (initSys P) := by
  refine ⟨countTarget_initMem_le_one P.slotsA P.slotsB hA hd, ?_,
    payloadInv_initMem P.slotsA P.slotsB P.slotsA,
    payloadInv_initMem P.slotsA P.slotsB P.slotsB⟩
  rw [show (initSys P).mem = initMem P.slotsB P.slotsA from initMem_comm _ _]
  exact countTarget_initMem_le_one P.slotsB P.slotsA hB (List.Disjoint.symm hd)

theorem memoryBehavior_ne_none (det : Bool) (pl : Option QState) (h : pl ≠ none) :
    memoryBehavior det pl ≠ none := by
  cases pl with
  | none => exact absurd rfl h
  | some q => simp [memoryBehavior]

theorem inv_step (P : Params) {s s' : Sys} (hA : P.slotsA.Nodup) (hB : P.slotsB.Nodup)
    (hd : P.slotsA.Disjoint P.slotsB) (h : Inv P s) (hs : Step P s s') : Inv P s' := by
  obtain ⟨h1, h2, h3, h4⟩ := h
  cases hs with
  | arriveA q => exact ⟨h1, h2, h3, h4⟩
  | arriveB q => exact ⟨h1, h2, h3, h4⟩
  | tickA =>
      have hframe : ∀ k ∈ P.slotsB, (applyTickA P s).mem k = s.mem k := fun k hk =>
        tickChannel_frame P.period P.dur P.slotsA s.mem s.ctA k (fun hkA => hd hkA hk)
      refine ⟨tickChannel_count P.period P.dur P.slotsA s.mem s.ctA hA h1, ?_,
        tickChannel_payload P.period P.dur P.slotsA s.mem s.ctA h3, ?_⟩
      · rw [countTarget_congr P.slotsB s.mem _ hframe]
        exact h2
      · intro k hk
        rw [hframe k hk]
        exact h4 k hk
  | tickB =>
      have hframe : ∀ k ∈ P.slotsA, (applyTickB P s).mem k = s.mem k := fun k hk =>
        tickChannel_frame P.period P.dur P.slotsB s.mem s.ctB k (fun hkB => hd hk hkB)
      refine ⟨?_, tickChannel_count P.period P.dur P.slotsB s.mem s.ctB hB h2, ?_,
        tickChannel_payload P.period P.dur P.slotsB s.mem s.ctB h4⟩
      · rw [countTarget_congr P.slotsA s.mem _ hframe]
        exact h1
      · intro k hk
        rw [hframe k hk]
        exact h3 k hk
  | routeA draw =>
      show Inv P (applyRouteA P draw s)
      unfold applyRouteA
      rcases routeStep_eq P.p draw P.slotsA s.mem s.bufA with heq | ⟨t, q, _, htgt, heq⟩
      · rw [heq]
        exact ⟨h1, h2, h3, h4⟩
      · rw [heq]
        obtain ⟨htA, hstT⟩ := getTargetSlot_spec s.mem P.slotsA t htgt
        have hpl : memoryBehavior (detected P.p draw) ((s.mem t).payload) ≠ none :=
          memoryBehavior_ne_none _ _ (h3 t htA (by rw [hstT]; simp))
        exact ⟨countTarget_upd_le s.mem P.slotsA t _ (by simp) h1,
          countTarget_upd_le s.mem P.slotsB t _ (by simp) h2,
          payloadInv_upd s.mem P.slotsA t _ (fun _ => hpl) h3,
          payloadInv_upd s.mem P.slotsB t _ (fun _ => hpl) h4⟩
  | routeB draw =>
      show Inv P (applyRouteB P draw s)
      unfold applyRouteB
      rcases routeStep_eq P.p draw P.slotsB s.mem s.bufB with heq | ⟨t, q, _, htgt, heq⟩
      · rw [heq]
        exact ⟨h1, h2, h3, h4⟩
      · rw [heq]
        obtain ⟨htB, hstT⟩ := getTargetSlot_spec s.mem P.slotsB t htgt
        have hpl : memoryBehavior (detected P.p draw) ((s.mem t).payload) ≠ none :=
          memoryBehavior_ne_none _ _ (h4 t htB (by rw [hstT]; simp))
        exact ⟨countTarget_upd_le s.mem P.slotsA t _ (by simp) h1,
          countTarget_upd_le s.mem P.slotsB t _ (by simp) h2,
          payloadInv_upd s.mem P.slotsA t _ (fun _ => hpl) h3,
          payloadInv_upd s.mem P.slotsB t _ (fun _ => hpl) h4⟩
  | pair =>
      show Inv P (applyPair P s)
      unfold applyPair
      rcases pairStep_eq P.slotsA P.slotsB s.mem with heq | ⟨a, b, heq⟩
      · rw [heq]
        exact ⟨h1, h2, h3, h4⟩
      · rw [heq]
        have hres : (⟨Status.RESET, none⟩ : Slot).status ≠ Status.TARGET := by simp
        have hresP : (⟨Status.RESET, none⟩ : Slot).status ≠ Status.RESET →
            (⟨Status.RESET, none⟩ : Slot).payload ≠ none := fun hc => absurd rfl hc
        exact ⟨countTarget_upd_le _ P.slotsA b _ hres
            (countTarget_upd_le s.mem P.slotsA a _ hres h1),
          countTarget_upd_le _ P.slotsB b _ hres
            (countTarget_upd_le s.mem P.slotsB a _ hres h2),
          payloadInv_upd _ P.slotsA b _ hresP
            (payloadInv_upd s.mem P.slotsA a _ hresP h3),
          payloadInv_upd _ P.slotsB b _ hresP
            (payloadInv_upd s.mem P.slotsB a _ hresP h4)⟩

theorem inv_of_reachable (P : Params) (hA : P.slotsA.Nodup) (hB : P.slotsB.Nodup)
    (hd : P.slotsA.Disjoint P.slotsB) {s : Sys} (hr : Reachable P s) : Inv P s := by
  induction hr with
  | init => exact inv_init P hA hB hd
  | step hprev hstep ih => exact inv_step P hA hB hd ih hstep

theorem lcStep_reset_pos (period dur : Nat) (x : LC) (hst : x.slot.status = Status.RESET)
    (hrt : x.rt ≠ 0) : lcStep period dur x = ⟨x.slot, x.rt - 1, x.tt⟩ := by
  unfold lcStep
  cases hs : x.slot.status <;> simp_all

theorem lcStep_reset_zero (period dur : Nat) (x : LC) (hst : x.slot.status = Status.RESET)
    (hrt : x.rt = 0) :
    lcStep period dur x = ⟨⟨Status.IDLE, some QState.canonical⟩, dur, x.tt⟩ := by
  unfold lcStep
  cases hs : x.slot.status <;> simp_all

theorem lcStep_nonreset_zero (period dur : Nat) (x : LC)
    (hst : x.slot.status ≠ Status.RESET) (htt : x.tt = 0) :
    lcStep period dur x = ⟨⟨Status.RESET, x.slot.payload⟩, x.rt, period⟩ := by
  unfold lcStep
  cases hs : x.slot.status <;> simp_all

theorem pairStep_pos (A B : List Nat) (mem : Nat → Slot) (a b : Nat)
    (ha : firstFilled mem A = some a) (hb : firstFilled mem B = some b)
    (ha0 : a ≠ 0) (hb0 : b ≠ 0) :
    pairStep A B mem =
      (upd (upd mem a ⟨Status.RESET, none⟩) b ⟨Status.RESET, none⟩,
        some ⟨(mem a).payload, (mem b).payload, a, b⟩) := by
  unfold pairStep
  simp only [ha, hb]
  rw [if_pos ⟨ha0, hb0⟩]

/-- C1 (amended): whenever the pairing reaction to a StoredEvent finds a first
FILLED slot `a` on channel A and a first FILLED slot `b` on channel B and both
found ids are nonzero (as they are in any working layout, where memory positions
0 and 1 are the staging positions) and distinct, it emits exactly one
PairReadyEvent carrying both payloads and the two slot ids, pops both payloads,
sets both slots' status to RESET, and leaves every other position unchanged.
The original claim's Scenario A therefore emits an event referencing the first
slot of each channel, e.g. ids (2,3) — not (0,1), which the truthiness guard
`if slot_A and slot_B:` would reject. -/
theorem C1_pairing (slotsA slotsB : List Nat) (mem : Nat → Slot) (a b : Nat)
    (ha : firstFilled mem slotsA = some a) (hb : firstFilled mem slotsB = some b)
    (ha0 : a ≠ 0) (hb0 : b ≠ 0) (hab : a ≠ b) :
    (pairStep slotsA slotsB mem).2 = some ⟨(mem a).payload, (mem b).payload, a, b⟩ ∧
      ((pairStep slotsA slotsB mem).1 a).status = Status.RESET ∧
      ((pairStep slotsA slotsB mem).1 a).payload = none ∧
      ((pairStep slotsA slotsB mem).1 b).status = Status.RESET ∧
      ((pairStep slotsA slotsB mem).1 b).payload = none ∧
      (∀ j, j ≠ a → j ≠ b → (pairStep slotsA slotsB mem).1 j = mem j) := by
  rw [pairStep_pos slotsA slotsB mem a b ha hb ha0 hb0]
  refine ⟨rfl, ?_, ?_, ?_, ?_, fun j hja hjb => ?_⟩
  · simp [upd, hab]
  · simp [upd, hab]
  · simp [upd]
  · simp [upd]
  · simp [upd, hja, hjb]

/-- C1 witness: Scenario A on the `P1` configuration — an arrival on channel A
is stored into slot 2, an arrival on channel B into slot 3, and the following
pairing reaction emits one PairReadyEvent referencing slot ids (2,3) and resets
both slots. -/
theorem C1_pairing_witness :
    (firstFilled c1s4.mem [2] = some 2 ∧ firstFilled c1s4.mem [3] = some 3 ∧
      (2 : Nat) ≠ 0 ∧ (3 : Nat) ≠ 0 ∧ (2 : Nat) ≠ 3) ∧
      ((pairStep [2] [3] c1s4.mem).2 =
          some ⟨(c1s4.mem 2).payload, (c1s4.mem 3).payload, 2, 3⟩ ∧
        ((pairStep [2] [3] c1s4.mem).1 2).status = Status.RESET ∧
        ((pairStep [2] [3] c1s4.mem).1 2).payload = none ∧
        ((pairStep [2] [3] c1s4.mem).1 3).status = Status.RESET ∧
        ((pairStep [2] [3] c1s4.mem).1 3).payload = none ∧
        (∀ j, j ≠ 2 → j ≠ 3 → (pairStep [2] [3] c1s4.mem).1 j = c1s4.mem j)) :=
  ⟨⟨by decide, by decide, by decide, by decide, by decide⟩,
    C1_pairing [2] [3] c1s4.mem 2 3 (by decide) (by decide) (by decide) (by decide)
      (by decide)⟩

/-- C1 counterexample: with slot ids (0,1), exactly as the claim's Scenario A
states, both channel scans find a FILLED slot, yet the reaction emits no
PairReadyEvent and changes no status: the guard `if slot_A and slot_B:` uses
Python truthiness, and the integer slot id 0 is falsy. -/
theorem C1_counterexample :
    firstFilled cxAllFilled [0] = some 0 ∧ firstFilled cxAllFilled [1] = some 1 ∧
      (pairStep [0] [1] cxAllFilled).2 = none ∧
      ((pairStep [0] [1] cxAllFilled).1 0).status = Status.FILLED ∧
      ((pairStep [0] [1] cxAllFilled).1 1).status = Status.FILLED := by decide

/-- C2 (amended): for an arrival with a TARGET slot whose Bernoulli detection
trial fails, the router nevertheless runs the storage transform (without the
correction half), pops the staging buffer, sets the TARGET slot's status to
FILLED and emits the StoredEvent — exactly as on success, differing only in the
correction flag of the stored state.  The detection outcome is never consulted
outside the quantum program. -/
theorem C2_routing_failure (p : ℚ) (draw : Nat) (slots : List Nat) (mem : Nat → Slot)
    (q : QState) (t : Nat) (htgt : getTargetSlot mem slots = some t)
    (hdet : detected p draw = false) :
    routeStep p draw slots mem (some q) =
      ⟨upd mem t ⟨Status.FILLED, memoryBehavior false ((mem t).payload)⟩,
        none, some t⟩ := by
  simp [routeStep, htgt, hdet]

/-- C2 witness: a failed trial (parameter 0, draw 50) on a TARGET slot still
fills the slot and emits the event. -/
theorem C2_routing_failure_witness :
    (getTargetSlot cx2mem [2] = some 2 ∧ detected 0 50 = false) ∧
      routeStep 0 50 [2] cx2mem (some QState.canonical) =
        ⟨upd cx2mem 2 ⟨Status.FILLED, memoryBehavior false ((cx2mem 2).payload)⟩,
          none, some 2⟩ :=
  ⟨⟨by decide, by decide⟩,
    C2_routing_failure 0 50 [2] cx2mem QState.canonical 2 (by decide) (by decide)⟩

/-- C2 counterexample: a failed detection trial (probability parameter 0, so
the trial always fails) leaves neither status nor payload unchanged and does
emit a StoredEvent: the TARGET slot becomes FILLED, its payload is transformed,
and the signal carries the slot id. -/
theorem C2_counterexample :
    detected 0 50 = false ∧
      (cx2mem 2).status = Status.TARGET ∧
      (cx2mem 2).payload = some QState.canonical ∧
      ((routeStep 0 50 [2] cx2mem (some QState.canonical)).mem 2).status
        = Status.FILLED ∧
      ((routeStep 0 50 [2] cx2mem (some QState.canonical)).mem 2).payload
        = some (QState.stored false) ∧
      (routeStep 0 50 [2] cx2mem (some QState.canonical)).stored = some 2 := by decide

/-- C3 (amended): the detection trial succeeds iff the uniform integer draw
from [1,100] is at most `probability_detection`, so the parameter acts as a
percentage, not a probability in [0,1]: with parameter 0 no trial succeeds,
with parameter 100 every trial succeeds, and an integer parameter n ≤ 100
succeeds on exactly n of the 100 equiprobable draws (success probability
n/100).  In particular parameter 1 succeeds with probability 1/100, not 1. -/
theorem C3_bernoulli (n : Nat) (hn : n ≤ 100) :
    (∀ draw, 1 ≤ draw → detected 0 draw = false) ∧
      (∀ draw, draw ≤ 100 → detected 100 draw = true) ∧
      ((Finset.Icc 1 100).filter (fun d => detected ((n : Nat) : ℚ) d = true)).card
        = n := by
  refine ⟨?_, ?_, ?_⟩
  · intro draw h1
    simp only [detected, decide_eq_false_iff_not, not_le]
    have hpos : (0 : ℚ) < (draw : ℚ) := by exact_mod_cast h1
    linarith
  · intro draw h
    simp only [detected, decide_eq_true_eq]
    exact_mod_cast h
  · have hset : (Finset.Icc 1 100).filter (fun d => detected ((n : Nat) : ℚ) d = true)
        = Finset.Icc 1 n := by
      ext d
      simp only [Finset.mem_filter, Finset.mem_Icc, detected, decide_eq_true_eq]
      constructor
      · rintro ⟨⟨hd1, _⟩, hd2⟩
        exact ⟨hd1, by exact_mod_cast hd2⟩
      · rintro ⟨hd1, hd2⟩
        exact ⟨⟨hd1, le_trans hd2 hn⟩, by exact_mod_cast hd2⟩
    rw [hset, Nat.card_Icc]
    omega

/-- C3 witness: the amended statement at parameter 30 — never-succeeds at 0,
always-succeeds at 100, and exactly 30 of the 100 draws succeed. -/
theorem C3_bernoulli_witness :
    (30 : Nat) ≤ 100 ∧
      ((∀ draw, 1 ≤ draw → detected 0 draw = false) ∧
        (∀ draw, draw ≤ 100 → detected 100 draw = true) ∧
        ((Finset.Icc 1 100).filter (fun d => detected ((30 : Nat) : ℚ) d = true)).card
          = 30) :=
  ⟨by decide, C3_bernoulli 30 (by decide)⟩

/-- C3 counterexample: with `detection_probability = 1`, the value the claim
calls certain success, the draw 2 (a legal draw, between 1 and 100) fails the
trial, refuting that every trial succeeds when the parameter is 1. -/
theorem C3_counterexample :
    (1 : Nat) ≤ 2 ∧ (2 : Nat) ≤ 100 ∧ detected 1 2 = false := by decide

/-- C4 (amended): in every reachable state, a slot holds a payload whenever its
status is not RESET — in particular every FILLED slot holds its payload; but
the converse direction of the claimed equivalence fails, because IDLE and
TARGET slots hold the canonical default state. -/
theorem C4_filled_payload (P : Params) (hA : P.slotsA.Nodup) (hB : P.slotsB.Nodup)
    (hd : P.slotsA.Disjoint P.slotsB) {s : Sys} (hr : Reachable P s) (i : Nat)
    (hi : i ∈ P.slotsA ∨ i ∈ P.slotsB) :
    (s.mem i).status ≠ Status.RESET → (s.mem i).payload ≠ none := by
  obtain ⟨_, _, h3, h4⟩ := inv_of_reachable P hA hB hd hr
  rcases hi with hi | hi
  · exact h3 i hi
  · exact h4 i hi

/-- C4 witness: the amended statement applied at the initial `P4` state and
slot 2, whose status TARGET is not RESET and whose payload is present. -/
theorem C4_filled_payload_witness :
    (P4.slotsA.Nodup ∧ P4.slotsB.Nodup ∧ P4.slotsA.Disjoint P4.slotsB ∧
      Reachable P4 (initSys P4) ∧ (2 ∈ P4.slotsA ∨ 2 ∈ P4.slotsB)) ∧
      (((initSys P4).mem 2).status ≠ Status.RESET →
        ((initSys P4).mem 2).payload ≠ none) :=
  ⟨⟨by decide, by decide, by intro a ha hb; simp [P4] at ha hb; omega,
      Reachable.init, by decide⟩,
    C4_filled_payload P4 (by decide) (by decide)
      (by intro a ha hb; simp [P4] at ha hb; omega) Reachable.init 2 (by decide)⟩

/-- C4 counterexample: a reachable state (four lifecycle ticks of the `P4`
node) in which slot 2 holds the canonical payload written by `_reset_state`
while its status is TARGET, not FILLED — refuting the claimed equivalence
that a payload is present only in status FILLED. -/
theorem C4_counterexample :
    Reachable P4 s4 ∧ (s4.mem 2).status = Status.TARGET ∧
      (s4.mem 2).status ≠ Status.FILLED ∧
      (s4.mem 2).payload = some QState.canonical := by
  refine ⟨?_, by decide, by decide, by decide⟩
  exact Reachable.step (Reachable.step (Reachable.step (Reachable.step Reachable.init
    (Step.tickA _)) (Step.tickA _)) (Step.tickA _)) (Step.tickA _)

/-- C5: in every reachable state each channel has at most one TARGET slot, and
`_get_new_target` changes nothing when a TARGET already exists — a new TARGET
(the first IDLE slot) is promoted only when no slot of the channel has status
TARGET. -/
theorem C5_target_invariant (P : Params) (hA : P.slotsA.Nodup) (hB : P.slotsB.Nodup)
    (hd : P.slotsA.Disjoint P.slotsB) {s : Sys} (hr : Reachable P s) :
    countTarget s.mem P.slotsA ≤ 1 ∧ countTarget s.mem P.slotsB ≤ 1 ∧
      (∀ (m : Nat → Slot) (sl : List Nat),
        targetExists m sl = true → getNewTarget m sl = m) ∧
      (∀ (m : Nat → Slot) (sl : List Nat),
        targetExists m sl = false → getNewTarget m sl = promoteFirstIdle m sl) := by
  obtain ⟨h1, h2, _, _⟩ := inv_of_reachable P hA hB hd hr
  refine ⟨h1, h2, fun m sl ht => ?_, fun m sl ht => ?_⟩
  · unfold getNewTarget
    rw [if_pos ht]
  · unfold getNewTarget
    rw [if_neg (by rw [ht]; exact Bool.false_ne_true)]

/-- C5 witness: the invariant at the initial state of the `P5` node. -/
theorem C5_target_invariant_witness :
    (P5.slotsA.Nodup ∧ P5.slotsB.Nodup ∧ P5.slotsA.Disjoint P5.slotsB ∧
      Reachable P5 (initSys P5)) ∧
      (countTarget (initSys P5).mem P5.slotsA ≤ 1 ∧
        countTarget (initSys P5).mem P5.slotsB ≤ 1 ∧
        (∀ (m : Nat → Slot) (sl : List Nat),
          targetExists m sl = true → getNewTarget m sl = m) ∧
        (∀ (m : Nat → Slot) (sl : List Nat),
          targetExists m sl = false → getNewTarget m sl = promoteFirstIdle m sl)) :=
  ⟨⟨by decide, by decide, by intro a ha hb; simp [P5] at ha hb; omega, Reachable.init⟩,
    C5_target_invariant P5 (by decide) (by decide)
      (by intro a ha hb; simp [P5] at ha hb; omega) Reachable.init⟩

/-- C6 (amended): a RESET-to-IDLE transition reinitializes the payload to the
canonical default state and restores `reset_timer` to `reset_duration_cycles`,
but carries `trigger_timer` over unchanged; `trigger_timer` is restored to
`reset_period_cycles` at the moment RESET is entered through trigger expiry, so
after a RESET phase entered through pairing the slot returns to IDLE with its
stale, partially decremented trigger value. -/
theorem C6_reset_to_idle (period dur : Nat) (s : LC)
    (h : s.slot.status = Status.RESET) (h0 : s.rt = 0) :
    lcStep period dur s = ⟨⟨Status.IDLE, some QState.canonical⟩, dur, s.tt⟩ ∧
      (∀ x : LC, x.slot.status ≠ Status.RESET → x.tt = 0 →
        lcStep period dur x = ⟨⟨Status.RESET, x.slot.payload⟩, x.rt, period⟩) :=
  ⟨lcStep_reset_zero period dur s h h0,
    fun x hx htt => lcStep_nonreset_zero period dur x hx htt⟩

/-- C6 witness: the amended statement on a RESET slot holding a stale stored
payload with trigger timer 5. -/
theorem C6_reset_to_idle_witness :
    ((⟨⟨Status.RESET, some (QState.stored true)⟩, 0, 5⟩ : LC).slot.status
        = Status.RESET ∧
      (⟨⟨Status.RESET, some (QState.stored true)⟩, 0, 5⟩ : LC).rt = 0) ∧
      (lcStep 10 2 ⟨⟨Status.RESET, some (QState.stored true)⟩, 0, 5⟩ =
          ⟨⟨Status.IDLE, some QState.canonical⟩, 2, 5⟩ ∧
        (∀ x : LC, x.slot.status ≠ Status.RESET → x.tt = 0 →
          lcStep 10 2 x = ⟨⟨Status.RESET, x.slot.payload⟩, x.rt, 10⟩)) :=
  ⟨⟨by decide, by decide⟩,
    C6_reset_to_idle 10 2 ⟨⟨Status.RESET, some (QState.stored true)⟩, 0, 5⟩
      (by decide) (by decide)⟩

/-- C6 counterexample: on the `P6` node a pairing reaction reclaims slot 2
while its trigger timer stands at 8; after the reset duration elapses the slot
transitions RESET to IDLE on the next tick with `reset_timer` restored to 2 but
`trigger_timer` still 8, not the configured `reset_period_cycles` = 10 — the
round trip does not restore both timers. -/
theorem C6_counterexample :
    Reachable P6 c6s9 ∧
      (c6s9.mem 2).status = Status.RESET ∧ c6s9.ctA.rt 2 = 0 ∧
      c6s9.ctA.tt 2 = 8 ∧
      ((applyTickA P6 c6s9).mem 2).status = Status.IDLE ∧
      ((applyTickA P6 c6s9).mem 2).payload = some QState.canonical ∧
      (applyTickA P6 c6s9).ctA.rt 2 = 2 ∧
      (applyTickA P6 c6s9).ctA.tt 2 = 8 ∧
      P6.period = 10 := by
  refine ⟨?_, by decide, by decide, by decide, by decide, by decide, by decide,
    by decide, by decide⟩
  have h1 : Reachable P6 c6s1 := Reachable.step Reachable.init (Step.tickA _)
  have h2 : Reachable P6 c6s2 := Reachable.step h1 (Step.arriveA _ QState.canonical)
  have h3 : Reachable P6 c6s3 := Reachable.step h2 (Step.routeA _ 1)
  have h4 : Reachable P6 c6s4 := Reachable.step h3 (Step.tickA _)
  have h5 : Reachable P6 c6s5 := Reachable.step h4 (Step.arriveB _ QState.canonical)
  have h6 : Reachable P6 c6s6 := Reachable.step h5 (Step.routeB _ 1)
  have h7 : Reachable P6 c6s7 := Reachable.step h6 (Step.pair _)
  have h8 : Reachable P6 c6s8 := Reachable.step h7 (Step.tickA _)
  exact Reachable.step h8 (Step.tickA _)

/-- C7 (amended): a wake-up of the zero-capacity fallback always pops and
clears both port buffers; it emits a pair exactly when both buffers were
non-empty at that instant, and the emitted pair carries both popped payloads.
An arrival at only one port never emits — but its lone payload is popped and
discarded with the buffers, not kept for the other side's later arrival. -/
theorem C7_no_mem (a b : Option QState) :
    (noMemStep a b).1 = none ∧ (noMemStep a b).2.1 = none ∧
      ((noMemStep a b).2.2 ≠ none ↔ a ≠ none ∧ b ≠ none) ∧
      (∀ q1 q2, a = some q1 → b = some q2 → (noMemStep a b).2.2 = some (q1, q2)) := by
  cases a <;> cases b <;> simp [noMemStep]

/-- C7 counterexample: a lone arrival on port A emits nothing — so far the
claim agrees — but its payload does not stay buffered: both buffers are cleared
by the unconditional pops, and when the other side arrives in a later instant
the pair is again not emitted. -/
theorem C7_counterexample :
    (noMemStep (some QState.canonical) none).1 = none ∧
      (noMemStep (some QState.canonical) none).2.1 = none ∧
      (noMemStep (some QState.canonical) none).2.2 = none ∧
      (noMemStep none (some QState.canonical)).2.2 = none := by decide

/-- C8 (amended): the pairing reaction to one StoredEvent handles at most one
pair: when both scans find a nonzero first FILLED slot it emits exactly one
PairReadyEvent and leaves every slot other than the two popped ones untouched;
additional simultaneously ready pairs stay FILLED until a later StoredEvent
triggers another reaction — there is no re-scan loop. -/
theorem C8_single_pair (slotsA slotsB : List Nat) (mem : Nat → Slot) (a b : Nat)
    (ha : firstFilled mem slotsA = some a) (hb : firstFilled mem slotsB = some b)
    (ha0 : a ≠ 0) (hb0 : b ≠ 0) :
    (∃ e, (pairStep slotsA slotsB mem).2 = some e) ∧
      (∀ j, j ≠ a → j ≠ b → (pairStep slotsA slotsB mem).1 j = mem j) := by
  rw [pairStep_pos slotsA slotsB mem a b ha hb ha0 hb0]
  refine ⟨⟨_, rfl⟩, fun j hja hjb => ?_⟩
  simp [upd, hja, hjb]

/-- C8 witness: the amended statement on a memory with two FILLED slots per
channel. -/
theorem C8_single_pair_witness :
    (firstFilled cx8mem [2, 3] = some 2 ∧ firstFilled cx8mem [4, 5] = some 4 ∧
      (2 : Nat) ≠ 0 ∧ (4 : Nat) ≠ 0) ∧
      ((∃ e, (pairStep [2, 3] [4, 5] cx8mem).2 = some e) ∧
        (∀ j, j ≠ 2 → j ≠ 4 → (pairStep [2, 3] [4, 5] cx8mem).1 j = cx8mem j)) :=
  ⟨⟨by decide, by decide, by decide, by decide⟩,
    C8_single_pair [2, 3] [4, 5] cx8mem 2 4 (by decide) (by decide) (by decide)
      (by decide)⟩

/-- C8 counterexample: with two FILLED slots on each channel, the reaction to a
StoredEvent emits one PairReadyEvent for slots (2,4) and returns — slots 3 and
5 remain FILLED, a simultaneously ready pair left unhandled (a further reaction
would emit again), refuting that the coordinator repeats until no pair
remains. -/
theorem C8_counterexample :
    (pairStep [2, 3] [4, 5] cx8mem).2 =
        some ⟨some QState.canonical, some QState.canonical, 2, 4⟩ ∧
      ((pairStep [2, 3] [4, 5] cx8mem).1 3).status = Status.FILLED ∧
      ((pairStep [2, 3] [4, 5] cx8mem).1 5).status = Status.FILLED ∧
      (pairStep [2, 3] [4, 5] ((pairStep [2, 3] [4, 5] cx8mem).1)).2 ≠ none := by decide

/-- C9 (amended): an arrival processed while no slot of the channel has status
TARGET is ignored without an exception, but nothing else the claim states
happens: the staging buffer is left untouched (the payload stays docked at the
storage position), no event is emitted, and the memory is unchanged — the
implementation maintains no drop counter, so nothing observable records the
drop. -/
theorem C9_drop (p : ℚ) (draw : Nat) (slots : List Nat) (mem : Nat → Slot)
    (buf : Option QState) (h : getTargetSlot mem slots = none) :
    routeStep p draw slots mem buf = ⟨mem, buf, none⟩ := by
  cases buf with
  | none => rfl
  | some q => simp [routeStep, h]

/-- C9 witness: the amended statement on an all-IDLE memory with a buffered
arrival. -/
theorem C9_drop_witness :
    getTargetSlot cx9mem [2] = none ∧
      routeStep 1 50 [2] cx9mem (some QState.canonical) =
        ⟨cx9mem, some QState.canonical, none⟩ :=
  ⟨by decide, C9_drop 1 50 [2] cx9mem (some QState.canonical) (by decide)⟩

/-- C9 counterexample: with no TARGET slot the arrival is not cleared from the
staging buffer (it remains buffered) and no observable drop record of any kind
is produced — the routing step leaves the whole state exactly as it was,
refuting the claimed buffer clear and counter increment. -/
theorem C9_counterexample :
    getTargetSlot cx9mem [2] = none ∧
      (routeStep 1 50 [2] cx9mem (some QState.canonical)).buf
        = some QState.canonical ∧
      (routeStep 1 50 [2] cx9mem (some QState.canonical)).stored = none ∧
      (routeStep 1 50 [2] cx9mem (some QState.canonical)).mem 2 = cx9mem 2 := by decide

/-- C10: a slot that enters RESET with `reset_timer` equal to
`reset_duration_cycles` stays in RESET for exactly `reset_duration_cycles` + 1
lifecycle steps of that slot: each of the first `reset_duration_cycles` steps
decrements the timer leaving status, payload, and trigger timer unchanged, and
the step on which the timer is already zero reinitializes the payload to the
canonical default state, sets the status to IDLE, and restores `reset_timer` to
`reset_duration_cycles`. -/
theorem C10_reset_duration (period dur : Nat) (s : LC)
    (h : s.slot.status = Status.RESET) (h0 : s.rt = dur) :
    (∀ k, k ≤ dur → ((lcStep period dur)^[k] s).slot.status = Status.RESET ∧
        ((lcStep period dur)^[k] s).rt = dur - k ∧
        ((lcStep period dur)^[k] s).slot.payload = s.slot.payload ∧
        ((lcStep period dur)^[k] s).tt = s.tt) ∧
      (lcStep period dur)^[dur + 1] s =
        ⟨⟨Status.IDLE, some QState.canonical⟩, dur, s.tt⟩ := by
  have main : ∀ k, k ≤ dur → ((lcStep period dur)^[k] s).slot.status = Status.RESET ∧
      ((lcStep period dur)^[k] s).rt = dur - k ∧
      ((lcStep period dur)^[k] s).slot.payload = s.slot.payload ∧
      ((lcStep period dur)^[k] s).tt = s.tt := by
    intro k
    induction k with
    | zero =>
        intro _
        rw [Function.iterate_zero_apply]
        exact ⟨h, by omega, rfl, rfl⟩
    | succ k ih =>
        intro hk
        obtain ⟨hst, hrt, hpl, htt⟩ := ih (Nat.le_of_succ_le hk)
        rw [Function.iterate_succ_apply']
        have hrt0 : ((lcStep period dur)^[k] s).rt ≠ 0 := by omega
        rw [lcStep_reset_pos period dur _ hst hrt0]
        refine ⟨hst, ?_, hpl, htt⟩
        simp only [hrt]
        omega
  refine ⟨main, ?_⟩
  obtain ⟨hst, hrt, hpl, htt⟩ := main dur le_rfl
  rw [Function.iterate_succ_apply']
  rw [lcStep_reset_zero period dur _ hst (by omega)]
  rw [htt]

/-- C10 witness: the full reset countdown for duration 2 starting from a RESET
slot with a stale payload: three steps of RESET bookkeeping ending in the
reinitialized IDLE slot. -/
theorem C10_reset_duration_witness :
    ((⟨⟨Status.RESET, some (QState.stored false)⟩, 2, 7⟩ : LC).slot.status
        = Status.RESET ∧
      (⟨⟨Status.RESET, some (QState.stored false)⟩, 2, 7⟩ : LC).rt = 2) ∧
      ((∀ k, k ≤ 2 →
          ((lcStep 10 2)^[k] ⟨⟨Status.RESET, some (QState.stored false)⟩, 2, 7⟩).slot.status
              = Status.RESET ∧
            ((lcStep 10 2)^[k] ⟨⟨Status.RESET, some (QState.stored false)⟩, 2, 7⟩).rt
              = 2 - k ∧
            ((lcStep 10 2)^[k] ⟨⟨Status.RESET, some (QState.stored false)⟩, 2, 7⟩).slot.payload
              = (⟨⟨Status.RESET, some (QState.stored false)⟩, 2, 7⟩ : LC).slot.payload ∧
            ((lcStep 10 2)^[k] ⟨⟨Status.RESET, some (QState.stored false)⟩, 2, 7⟩).tt
              = (⟨⟨Status.RESET, some (QState.stored false)⟩, 2, 7⟩ : LC).tt) ∧
        (lcStep 10 2)^[2 + 1] ⟨⟨Status.RESET, some (QState.stored false)⟩, 2, 7⟩ =
          ⟨⟨Status.IDLE, some QState.canonical⟩, 2,
            (⟨⟨Status.RESET, some (QState.stored false)⟩, 2, 7⟩ : LC).tt⟩) :=
  ⟨⟨by decide, by decide⟩,
    C10_reset_duration 10 2 ⟨⟨Status.RESET, some (QState.stored false)⟩, 2, 7⟩
      (by decide) (by decide)⟩

end EntanglementSwap
